import Mathlib

/-!
Verification of the `ffnn.ts` core: a matrix primitive over a flat buffer,
Gaussian weight initialization, a feedforward pass (tanh hidden layers and a
sigmoid output layer), per-pixel color derivation with bounded uniform noise,
and row-major RGBA buffer assembly.

Embedding conventions:
* JavaScript 64-bit floats are modelled as real numbers (`ℝ`).  Float rounding
  and overflow are not modelled; `NaN`/`undefined` is modelled explicitly as
  `Option.none` at the one place the pipeline can surface it (reading the
  forward-pass output buffer in `getColorAt`), and by the `JNum` type where the
  typed-array allocation semantics of `zeros` is at issue.
* The global `Math.random()` state is modelled as an explicit tape
  `u : ℕ → ℝ` together with a cursor `c : ℕ` that every function touching the
  random source takes and returns.  `generateGaussianRandom`'s rejection loop
  is unbounded (it retries until `0 < u²+v² ≤ 1`), so the weight-sampling side
  is abstracted one level up: model construction consumes a tape `g : ℕ → ℝ`
  whose entries stand for the successive return values of
  `generateGaussianRandom`.  A faithful fuel-indexed version of the rejection
  loop is given as `generateGaussianRandom` for reference.
* Thrown exceptions are modelled with `Except String`.
* Matrix dimensions in the pipeline are natural numbers; buffer indices in
  `Matrix.get`/`Matrix.set` are integers so that the (intentionally lenient)
  bounds check can be stated on negative flat indices as well.  Out-of-range
  typed-array reads yield `undefined` (modelled as `none` by `Matrix.get`);
  out-of-range typed-array writes are silently dropped (`List.set` is a no-op
  out of range, matching that).
-/

namespace FFNN

/-- Configuration record: image dimensions, network shape, channel maxima. -/
structure Config where
  width : ℕ
  height : ℕ
  input : ℕ
  hidden : ℕ
  maxR : ℝ
  maxG : ℝ
  maxB : ℝ

/-- Dense row-major matrix: `n` rows, `d` columns, flat buffer `w`. -/
@[ext]
structure Matrix where
  n : ℕ
  d : ℕ
  w : List ℝ

/-- `new Matrix(n, d)` for natural dimensions: a zero-filled buffer of `n*d`
entries (the `zeros` allocation; see `JNum`/`zeros` below for the general
JavaScript-number semantics of the allocation). -/
def mkMat (n d : ℕ) : Matrix :=
  ⟨n, d, List.replicate (n * d) 0⟩

/-- Buffer-length invariant maintained by every matrix the pipeline builds. -/
def Matrix.wf (m : Matrix) : Prop :=
  m.w.length = m.n * m.d

/-- `sig(x) = 1.0 / (1 + Math.exp(-x))`. -/
noncomputable def sig (x : ℝ) : ℝ :=
  1.0 / (1 + Real.exp (-x))

/-- Shared elementwise-map loop of `tanh(matrix)` and `sigmoid(matrix)`:
the output is a fresh `new Matrix(m.n, m.d)` and for `i < m.w.length` the
write `out.w[i] = f(m.w[i])` lands only when `i` is inside the fresh buffer;
entries of the fresh buffer beyond `m.w.length` keep their initial `0`. -/
noncomputable def elemwise (f : ℝ → ℝ) (m : Matrix) : Matrix :=
  ⟨m.n, m.d, (List.range (m.n * m.d)).map (fun i =>
    match m.w[i]? with
    | some x => f x
    | none => 0)⟩

/-- `tanh(matrix)`, elementwise `Math.tanh`. -/
noncomputable def tanh (m : Matrix) : Matrix :=
  elemwise Real.tanh m

/-- `sigmoid(matrix)`, elementwise `sig`. -/
noncomputable def sigmoid (m : Matrix) : Matrix :=
  elemwise sig m

/-- Dot product of row `i` of `m1` with column `j` of `m2`, exactly as the
inner loop of `matrixMul` reads the two buffers
(`m1.w[m1.d*i + k] * m2.w[m2.d*k + j]`, accumulated over `k < m1.d`).
All reads are in range whenever both matrices satisfy `wf` and
`i < m1.n`, `j < m2.d`; the `getD _ 0` default is never exercised there. -/
def dotRowCol (m1 m2 : Matrix) (i j : ℕ) : ℝ :=
  ((List.range m1.d).map (fun k =>
    m1.w.getD (m1.d * i + k) 0 * m2.w.getD (m2.d * k + j) 0)).sum

def msgMisaligned : String :=
  "Matrix dimensions misaligned"

/-- `matrixMul(m1, m2)`: throws when `m1.d !== m2.n`, otherwise fills the
`(m1.n, m2.d)` result row-major with the row/column dot products. -/
def matrixMul (m1 m2 : Matrix) : Except String Matrix :=
  if m1.d ≠ m2.n then Except.error msgMisaligned
  else Except.ok ⟨m1.n, m2.d,
    (List.range (m1.n * m2.d)).map (fun idx =>
      dotRowCol m1 m2 (idx / m2.d) (idx % m2.d))⟩

def msgOob : String :=
  "index out of bounds"

/-- `Matrix.get(row, col)`: flat index `ix = d*row + col`; throws iff
`ix >= 0 && ix > w.length`.  A successful read of an index outside the buffer
(negative, or equal to the length) yields `undefined`, modelled as `none`. -/
def Matrix.get (m : Matrix) (row col : ℤ) : Except String (Option ℝ) :=
  let ix : ℤ := m.d * row + col
  if 0 ≤ ix ∧ (m.w.length : ℤ) < ix then Except.error msgOob
  else Except.ok (if 0 ≤ ix then m.w[ix.toNat]? else none)

/-- `Matrix.set(row, col, value)`: same lenient bounds check as `get`; a
surviving write outside the buffer (negative index, or index ≥ length) does
not change the buffer, matching typed-array semantics. -/
def Matrix.set (m : Matrix) (row col : ℤ) (v : ℝ) : Except String Matrix :=
  let ix : ℤ := m.d * row + col
  if 0 ≤ ix ∧ (m.w.length : ℤ) < ix then Except.error msgOob
  else Except.ok ⟨m.n, m.d, if 0 ≤ ix then m.w.set ix.toNat v else m.w⟩

/-- Fuel-indexed model of `generateGaussianRandom()`'s Marsaglia rejection
loop over the raw `Math.random()` tape `u`.  The loop is unbounded in the
source (it retries while `r === 0 || r > 1`), hence the explicit fuel; the
rest of the development abstracts its successive return values as a tape. -/
noncomputable def generateGaussianRandom (u : ℕ → ℝ) (c : ℕ) : ℕ → Option (ℝ × ℕ)
  | 0 => none
  | fuel + 1 =>
    let a := 2 * u c - 1
    let b := 2 * u (c + 1) - 1
    let r := a * a + b * b
    if r = 0 ∨ r > 1 then generateGaussianRandom u (c + 2) fuel
    else some (a * Real.sqrt ((-2) * Real.log r / r), c + 2)

/-- `generateRandomNormal(mean, standardDeviation)`: consumes the next
Gaussian deviate from the deviate tape `g`. -/
def generateRandomNormal (mean standardDeviation : ℝ) (g : ℕ → ℝ) (c : ℕ) :
    ℝ × ℕ :=
  (mean + g c * standardDeviation, c + 1)

/-- `fillRandn(matrix, mean, standardDeviation)`: overwrites every buffer
entry with an independent `generateRandomNormal` draw, consuming
`matrix.w.length` deviates in order. -/
def fillRandn (m : Matrix) (mean standardDeviation : ℝ) (g : ℕ → ℝ) (c : ℕ) :
    Matrix × ℕ :=
  (⟨m.n, m.d, (List.range m.w.length).map (fun i =>
      (generateRandomNormal mean standardDeviation g (c + i)).1)⟩,
   c + m.w.length)

/-- JavaScript `x || dflt` on (non-`NaN`) numbers: `0` is falsy. -/
noncomputable def jsOr (x dflt : ℝ) : ℝ :=
  if x = 0 then dflt else x

/-- `RandMat(rows, columns, mean, standardDeviation)`: allocates then fills,
defaulting a falsy `mean` to `0` and a falsy `standardDeviation` to `0.08`. -/
noncomputable def RandMat (rows columns : ℕ) (mean standardDeviation : ℝ)
    (g : ℕ → ℝ) (c : ℕ) : Matrix × ℕ :=
  fillRandn (mkMat rows columns) (jsOr mean 0) (jsOr standardDeviation 0.08) g c

/-- Model record.  The source stores the hidden-layer matrices under the
dynamic keys `w_0 .. w_{hidden-1}`; they are modelled as the ordered list
`w_hidden`, position `i` standing for key `w_i`. -/
structure Model where
  w_in : Matrix
  w_out : Matrix
  w_hidden : List Matrix

def weightInitRange : ℝ := 0.8

/-- The hidden-layer construction loop of `createModel`: `k` more layers of
shape `(input, input)`, sampled in increasing key order. -/
noncomputable def hiddenLayers (input : ℕ) (g : ℕ → ℝ) : ℕ → ℕ → List Matrix × ℕ
  | c, 0 => ([], c)
  | c, k + 1 =>
    let p := RandMat input input 0 weightInitRange g c
    let rest := hiddenLayers input g p.2 k
    (p.1 :: rest.1, rest.2)

/-- `createModel(config)`: `w_in : (input, 3)`, `w_out : (3, input)`, then
`config.hidden` hidden layers, all sampled with spread `weightInitRange`. -/
noncomputable def createModel (config : Config) (g : ℕ → ℝ) (c : ℕ) :
    Model × ℕ :=
  let pin := RandMat config.input 3 0 weightInitRange g c
  let pout := RandMat 3 config.input 0 weightInitRange g pin.2
  let ph := hiddenLayers config.input g pout.2 config.hidden
  (⟨pin.1, pout.1, ph.1⟩, ph.2)

def msgUndefinedLayer : String :=
  "model has no such hidden layer"

/-- The augmented-input construction of `forwardNetwork`:
`new Matrix(3,1)` followed by `set(0,0,x)`, `set(1,0,y)`, `set(2,0,1.0)`. -/
def inputVector (x_ y_ : ℝ) : Except String Matrix := do
  let x0 := mkMat 3 1
  let x1 ← x0.set 0 0 x_
  let x2 ← x1.set 1 0 y_
  x2.set 2 0 1.0

/-- One iteration of the hidden-layer loop of `forwardNetwork`:
`out = tanh(matrixMul(model[w_i], out))`.  A missing key (the loop bound
comes from `config.hidden`, not from the model) crashes, modelled as an
error. -/
noncomputable def hiddenStep (model : Model) (out : Matrix) (i : ℕ) :
    Except String Matrix :=
  match model.w_hidden[i]? with
  | none => Except.error msgUndefinedLayer
  | some wl => do
    let p ← matrixMul wl out
    pure (tanh p)

/-- The hidden-layer loop of `forwardNetwork`: `hiddenStep` for
`i = 0 .. hidden-1` in order. -/
noncomputable def hiddenPass (model : Model) (hidden : ℕ) (out0 : Matrix) :
    Except String Matrix :=
  (List.range hidden).foldlM (hiddenStep model) out0

/-- `forwardNetwork(config, model, x, y)`.  It never touches the random
source: the tape/cursor pair is threaded through untouched. -/
noncomputable def forwardNetwork (config : Config) (model : Model)
    (x_ y_ : ℝ) (u : ℕ → ℝ) (c : ℕ) : Except String Matrix × ℕ :=
  let res : Except String Matrix := do
    let xv ← inputVector x_ y_
    let out0 := tanh (← matrixMul model.w_in xv)
    let outh ← hiddenPass model config.hidden out0
    pure (sigmoid (← matrixMul model.w_out outh))
  (res, c)

def noiseRange : ℝ := 0.03

/-- One `noise()` sample from a raw `Math.random()` value:
`(Math.random() * 2 - 1) * noiseRange`. -/
def noiseVal (r : ℝ) : ℝ :=
  (r * 2 - 1) * noiseRange

/-- `Math.min(255, Math.max(0, v))` on an actual number. -/
noncomputable def clamp255 (v : ℝ) : ℝ :=
  min 255 (max 0 v)

/-- `getColorAt(config, model, x, y)`: runs the forward pass, reads the three
output-buffer slots (`out.w[0..2]`; a read past the buffer is `undefined`,
i.e. `none`, and every arithmetic step keeps it `NaN`), adds one fresh noise
sample to each activation before scaling by the channel maximum, clamps with
`Math.min(255, Math.max(0, ·))`, and appends alpha `255`.  Exactly three
`Math.random()` draws are consumed, in channel order R, G, B. -/
noncomputable def getColorAt (config : Config) (model : Model) (x y : ℝ)
    (u : ℕ → ℝ) (c : ℕ) : Except String (List (Option ℝ)) × ℕ :=
  let p := forwardNetwork config model x y u c
  match p.1 with
  | Except.error e => (Except.error e, p.2)
  | Except.ok out =>
    let r := (out.w[0]?).map (fun v => (v + noiseVal (u p.2)) * config.maxR)
    let gc := (out.w[1]?).map (fun v => (v + noiseVal (u (p.2 + 1))) * config.maxG)
    let b := (out.w[2]?).map (fun v => (v + noiseVal (u (p.2 + 2))) * config.maxB)
    (Except.ok [r.map clamp255, gc.map clamp255, b.map clamp255, some 255],
     p.2 + 3)

/-- Round-half-to-even, the rounding a `Uint8ClampedArray` store applies to a
value already inside `[0, 255]`. -/
noncomputable def roundTiesEven (v : ℝ) : ℤ :=
  if v - Int.floor v < 1 / 2 then Int.floor v
  else if 1 / 2 < v - Int.floor v then Int.floor v + 1
  else if Even (Int.floor v) then Int.floor v else Int.floor v + 1

/-- A `Uint8ClampedArray` store: `NaN`/`undefined` (`none`) becomes `0`,
out-of-range values saturate at `0` and `255`, in-range values round with
ties to even. -/
noncomputable def toClampedByte (x : Option ℝ) : ℕ :=
  match x with
  | none => 0
  | some v =>
    if v ≤ 0 then 0
    else if 255 ≤ v then 255
    else (roundTiesEven v).toNat

/-- The four byte stores of one loop body of `getImageData`
(`pixels[idx..idx+3] = r, g, b, a`).  The destructuring
`const [r,g,b,a] = getColorAt(...)` reads positions 0..3 of the returned
array, `undefined` (`none`) for a missing position. -/
noncomputable def chanBytes (l : List (Option ℝ)) : List ℕ :=
  [toClampedByte (l.getD 0 none), toClampedByte (l.getD 1 none),
   toClampedByte (l.getD 2 none), toClampedByte (l.getD 3 none)]

/-- The pixel loop of `getImageData` over an explicit coordinate list, each
pixel contributing its four bytes in order and consuming the random state
left by the previous pixel.  A thrown exception aborts the loop. -/
noncomputable def renderPixels (config : Config) (model : Model) (u : ℕ → ℝ) :
    List (ℕ × ℕ) → ℕ → Except String (List ℕ) × ℕ
  | [], c => (Except.ok [], c)
  | (x, y) :: rest, c =>
    let p := getColorAt config model
      ((x : ℝ) / (config.width : ℝ)) ((y : ℝ) / (config.height : ℝ)) u c
    match p.1 with
    | Except.error e => (Except.error e, p.2)
    | Except.ok l =>
      let q := renderPixels config model u rest p.2
      match q.1 with
      | Except.error e => (Except.error e, q.2)
      | Except.ok bs => (Except.ok (chanBytes l ++ bs), q.2)

/-- Row-major pixel traversal order of `getImageData`: `y` outer over
`[0, height)`, `x` inner over `[0, width)`. -/
def pixelList (config : Config) : List (ℕ × ℕ) :=
  (List.range config.height).flatMap (fun y =>
    (List.range config.width).map (fun x => (x, y)))

/-- `getImageData(config)`: builds one model from the deviate tape `g` at
cursor `cg`, then renders every pixel row-major, consuming the raw
`Math.random()` tape `u` from cursor `cu` for the noise. -/
noncomputable def getImageData (config : Config) (g u : ℕ → ℝ) (cg cu : ℕ) :
    Except String (List ℕ) × ℕ :=
  renderPixels config (createModel config g cg).1 u (pixelList config) cu

/-!
JavaScript numbers for the allocation path.  `zeros(num)` feeds an arbitrary
JavaScript number to `new Float64Array(num)` after an `isNaN` guard; the
ECMAScript `ToIndex` conversion that constructor applies truncates toward
zero and throws a `RangeError` for negative or infinite lengths (and for
lengths above `2^53 - 1`).  `JNum` models a JavaScript number as `NaN`, an
infinity, or a finite real (float overflow to infinity on multiplication is
not modelled: the finite/finite product stays finite).
-/

/-- A JavaScript number: `NaN`, `±Infinity`, or a finite value. -/
inductive JNum where
  | nan : JNum
  | posInf : JNum
  | negInf : JNum
  | fin : ℝ → JNum

/-- JavaScript `isNaN` on a `JNum`. -/
def JNum.isNaN : JNum → Bool
  | .nan => true
  | _ => false

/-- Truncation toward zero (ECMAScript `ToIntegerOrInfinity` on a finite
value). -/
noncomputable def jsTrunc (x : ℝ) : ℤ :=
  if x < 0 then -Int.floor (-x) else Int.floor x

/-- ECMAScript `ToIndex`: `NaN` becomes index `0`; a finite value truncates
toward zero and must land in `[0, 2^53 - 1]`; anything else is a
`RangeError` (`none`). -/
noncomputable def toIndex : JNum → Option ℕ
  | .nan => some 0
  | .posInf => none
  | .negInf => none
  | .fin x =>
    let t := jsTrunc x
    if t < 0 ∨ (2 ^ 53 - 1 : ℤ) < t then none else some t.toNat

/-- JavaScript multiplication on `JNum` (sign rules for infinities,
`NaN` absorbing, `∞ * 0 = NaN`). -/
noncomputable def jmul : JNum → JNum → JNum
  | .nan, _ => .nan
  | .posInf, .nan => .nan
  | .negInf, .nan => .nan
  | .fin _, .nan => .nan
  | .posInf, .posInf => .posInf
  | .posInf, .negInf => .negInf
  | .negInf, .posInf => .negInf
  | .negInf, .negInf => .posInf
  | .posInf, .fin x => if x = 0 then .nan else if 0 < x then .posInf else .negInf
  | .negInf, .fin x => if x = 0 then .nan else if 0 < x then .negInf else .posInf
  | .fin x, .posInf => if x = 0 then .nan else if 0 < x then .posInf else .negInf
  | .fin x, .negInf => if x = 0 then .nan else if 0 < x then .negInf else .posInf
  | .fin x, .fin y => .fin (x * y)

def msgRangeErr : String :=
  "RangeError: invalid typed array length"

/-- `zeros(num)`: an empty buffer when `isNaN(num)`, otherwise
`new Float64Array(num)` under `ToIndex` semantics. -/
noncomputable def zeros (num : JNum) : Except String (List ℝ) :=
  if num.isNaN then Except.ok []
  else
    match toIndex num with
    | some len => Except.ok (List.replicate len 0)
    | none => Except.error msgRangeErr

/-- The buffer produced by `new Matrix(n, d)` for arbitrary JavaScript-number
dimensions: `zeros(n * d)`. -/
noncomputable def matrixNew (n d : JNum) : Except String (List ℝ) :=
  zeros (jmul n d)

/-- A `colorAt` channel that has been clamped into `[0, 255]` (the property
the specification asserts of every output channel).  A `NaN` channel
(`none`) does not satisfy it. -/
def clampedChan (o : Option ℝ) : Prop :=
  ∃ v, o = some v ∧ 0 ≤ v ∧ v ≤ 255

/-- The four bytes one pixel `p = (x, y)` contributes to the image buffer:
the byte conversions of the channels `getColorAt` computes at the normalized
coordinates `(x / width, y / height)` with the random cursor at `c`
(the empty list standing for an aborted render). -/
noncomputable def pixelBytes (config : Config) (model : Model) (u : ℕ → ℝ)
    (p : ℕ × ℕ) (c : ℕ) : List ℕ :=
  match (getColorAt config model ((p.1 : ℝ) / (config.width : ℝ))
      ((p.2 : ℝ) / (config.height : ℝ)) u c).1 with
  | Except.ok l => chanBytes l
  | Except.error _ => []

/-! ### Basic structural lemmas -/

@[simp]
lemma mkMat_n (n d : ℕ) : (mkMat n d).n = n := rfl

@[simp]
lemma mkMat_d (n d : ℕ) : (mkMat n d).d = d := rfl

@[simp]
lemma mkMat_w (n d : ℕ) : (mkMat n d).w = List.replicate (n * d) 0 := rfl

lemma mkMat_wf (n d : ℕ) : (mkMat n d).wf := by
  simp [Matrix.wf, mkMat]

@[simp]
lemma elemwise_n (f : ℝ → ℝ) (m : Matrix) : (elemwise f m).n = m.n := rfl

@[simp]
lemma elemwise_d (f : ℝ → ℝ) (m : Matrix) : (elemwise f m).d = m.d := rfl

lemma elemwise_wf (f : ℝ → ℝ) (m : Matrix) : (elemwise f m).wf := by
  simp [Matrix.wf, elemwise]

/-- On a well-formed matrix the elementwise loop is exactly `List.map`. -/
lemma elemwise_of_wf (f : ℝ → ℝ) (m : Matrix) (h : m.wf) :
    elemwise f m = ⟨m.n, m.d, m.w.map f⟩ := by
  unfold elemwise
  refine congrArg (Matrix.mk m.n m.d) ?_
  have hlen : m.w.length = m.n * m.d := h
  apply List.ext_getElem
  · simp [hlen]
  · intro i h1 h2
    have hi : i < m.w.length := by simpa using h2
    simp [List.getElem?_eq_getElem hi]

lemma matrixMul_err (m1 m2 : Matrix) (h : m1.d ≠ m2.n) :
    matrixMul m1 m2 = Except.error msgMisaligned := by
  simp [matrixMul, h]

lemma matrixMul_ok (m1 m2 : Matrix) (h : m1.d = m2.n) :
    matrixMul m1 m2 = Except.ok ⟨m1.n, m2.d,
      (List.range (m1.n * m2.d)).map (fun idx =>
        dotRowCol m1 m2 (idx / m2.d) (idx % m2.d))⟩ := by
  simp [matrixMul, h]

lemma matrixMul_shape (m1 m2 : Matrix) (h : m1.d = m2.n) :
    ∃ m3, matrixMul m1 m2 = Except.ok m3 ∧ m3.n = m1.n ∧ m3.d = m2.d ∧ m3.wf := by
  refine ⟨_, matrixMul_ok m1 m2 h, rfl, rfl, ?_⟩
  simp [Matrix.wf]

lemma index_lt_of_lt_lt {i j n d : ℕ} (hi : i < n) (hj : j < d) :
    d * i + j < n * d := by
  calc d * i + j < d * i + d := by omega
    _ = d * (i + 1) := by ring
    _ ≤ d * n := Nat.mul_le_mul_left d hi
    _ = n * d := Nat.mul_comm d n

lemma index_lt_of_lt_lt' {i j n d : ℕ} (hi : i < n) (hj : j < d) :
    i * d + j < n * d := by
  have := index_lt_of_lt_lt hi hj
  rw [Nat.mul_comm d i] at this
  exact this

/-- Each cell of a successful product is the corresponding row/column dot
product. -/
lemma matrixMul_entry (m1 m2 m3 : Matrix) (hok : matrixMul m1 m2 = Except.ok m3)
    (i j : ℕ) (hi : i < m1.n) (hj : j < m2.d) :
    m3.w.getD (m2.d * i + j) 0 = dotRowCol m1 m2 i j := by
  by_cases h : m1.d = m2.n
  · rw [matrixMul_ok m1 m2 h] at hok
    cases hok
    have hd : 0 < m2.d := Nat.pos_of_ne_zero (by omega)
    have hlt : m2.d * i + j < m1.n * m2.d := index_lt_of_lt_lt hi hj
    rw [List.getD_eq_getElem?_getD]
    rw [List.getElem?_eq_getElem (by simpa using hlt)]
    simp only [List.getElem_map, List.getElem_range, Option.getD_some]
    rw [Nat.mul_add_div hd, Nat.mul_add_mod, Nat.div_eq_of_lt hj,
      Nat.mod_eq_of_lt hj, Nat.add_zero]
  · rw [matrixMul_err m1 m2 h] at hok
    cases hok

/-! ### C3, C4, C8, C9 -/

/-- C3: `Matrix.get(row, col)` and `Matrix.set(row, col, value)` compute the
flat index `ix = d*row + col` and throw an out-of-bounds error exactly when
`ix ≥ 0` and `ix` is strictly greater than the buffer length; a negative
`ix` and `ix` equal to the buffer length are never rejected. -/
theorem c3_get_set_bounds (m : Matrix) (row col : ℤ) (v : ℝ) :
    ((∃ e, m.get row col = Except.error e) ↔
      0 ≤ (m.d : ℤ) * row + col ∧ (m.w.length : ℤ) < (m.d : ℤ) * row + col) ∧
    ((∃ e, m.set row col v = Except.error e) ↔
      0 ≤ (m.d : ℤ) * row + col ∧ (m.w.length : ℤ) < (m.d : ℤ) * row + col) ∧
    ((m.d : ℤ) * row + col < 0 →
      (∃ r, m.get row col = Except.ok r) ∧
      (∃ m', m.set row col v = Except.ok m')) ∧
    ((m.d : ℤ) * row + col = (m.w.length : ℤ) →
      (∃ r, m.get row col = Except.ok r) ∧
      (∃ m', m.set row col v = Except.ok m')) := by
  by_cases h : 0 ≤ (m.d : ℤ) * row + col ∧ (m.w.length : ℤ) < (m.d : ℤ) * row + col
  · refine ⟨?_, ?_, ?_, ?_⟩
    · simp [Matrix.get, h]
    · simp [Matrix.set, h]
    · intro hneg; omega
    · intro heq; omega
  · refine ⟨?_, ?_, ?_, ?_⟩
    · simp [Matrix.get, h]
    · simp [Matrix.set, h]
    · intro _; exact ⟨by simp [Matrix.get, h], by simp [Matrix.set, h]⟩
    · intro _; exact ⟨by simp [Matrix.get, h], by simp [Matrix.set, h]⟩

/-- Witness for C3 at a concrete 2×2 matrix: the negative flat index `-2`
and the flat index `4` (equal to the buffer length) are both accepted. -/
theorem c3_get_set_bounds_witness :
    ((∃ r, (mkMat 2 2).get (-1) 0 = Except.ok r) ∧
     (∃ m', (mkMat 2 2).set (-1) 0 5 = Except.ok m')) ∧
    ((∃ r, (mkMat 2 2).get 2 0 = Except.ok r) ∧
     (∃ m', (mkMat 2 2).set 2 0 5 = Except.ok m')) :=
  ⟨(c3_get_set_bounds (mkMat 2 2) (-1) 0 5).2.2.1 (by norm_num [mkMat]),
   (c3_get_set_bounds (mkMat 2 2) 2 0 5).2.2.2 (by norm_num [mkMat])⟩

/-- C4: `matrixMul(A, B)` throws a dimension-mismatch error iff
`A.d ≠ B.n`; on compatible shapes the result has shape `(A.n, B.d)` (with a
full buffer) and each cell `(i, j)` is the dot product of row `i` of `A`
with column `j` of `B`. -/
theorem c4_matrixMul_spec (A B : Matrix) :
    ((∃ e, matrixMul A B = Except.error e) ↔ A.d ≠ B.n) ∧
    (A.d = B.n → ∃ C, matrixMul A B = Except.ok C ∧ C.n = A.n ∧ C.d = B.d ∧
      C.w.length = A.n * B.d ∧
      ∀ i j, i < A.n → j < B.d →
        C.w.getD (B.d * i + j) 0 = dotRowCol A B i j) := by
  constructor
  · constructor
    · rintro ⟨e, he⟩ hdn
      rw [matrixMul_ok A B hdn] at he
      cases he
    · intro hdn
      exact ⟨msgMisaligned, matrixMul_err A B hdn⟩
  · intro hdn
    obtain ⟨C, hC, hn, hd, hwf⟩ := matrixMul_shape A B hdn
    refine ⟨C, hC, hn, hd, ?_, ?_⟩
    · rw [hwf, hn, hd]
    · intro i j hi hj
      exact matrixMul_entry A B C hC i j (hn ▸ hi) hj

/-- Witness for C4 at concrete 1×1 matrices. -/
theorem c4_matrixMul_spec_witness :
    ∃ C, matrixMul ⟨1, 1, [2]⟩ ⟨1, 1, [3]⟩ = Except.ok C ∧ C.n = 1 ∧ C.d = 1 ∧
      C.w.length = 1 * 1 ∧
      ∀ i j, i < 1 → j < 1 →
        C.w.getD (1 * i + j) 0 = dotRowCol ⟨1, 1, [2]⟩ ⟨1, 1, [3]⟩ i j :=
  (c4_matrixMul_spec ⟨1, 1, [2]⟩ ⟨1, 1, [3]⟩).2 rfl

/-- C8: `RandMat` substitutes the default spread `0.08` for a falsy
(zero) `standardDeviation` and the default `0` for a falsy (zero) `mean`:
every entry is `(mean || 0) + deviate * (standardDeviation || 0.08)`, so a
caller-supplied `standardDeviation = 0` behaves exactly like `0.08`. -/
theorem c8_randMat_defaults (rows columns : ℕ) (mean sd : ℝ) (g : ℕ → ℝ)
    (c : ℕ) :
    (RandMat rows columns mean sd g c).1.w =
      (List.range (rows * columns)).map (fun i =>
        (if mean = 0 then (0 : ℝ) else mean) +
          g (c + i) * (if sd = 0 then (0.08 : ℝ) else sd)) ∧
    RandMat rows columns mean 0 g c = RandMat rows columns mean 0.08 g c ∧
    (RandMat rows columns mean sd g c).2 = c + rows * columns := by
  refine ⟨?_, ?_, ?_⟩
  · simp [RandMat, fillRandn, mkMat, jsOr, generateRandomNormal]
  · have h8 : (0.08 : ℝ) ≠ 0 := by norm_num
    simp [RandMat, jsOr, h8]
  · simp [RandMat, fillRandn, mkMat]

/-- C9: the forward pass is deterministic after model construction: its
result does not depend on the random tape or cursor, and it consumes no
randomness (the cursor is returned unchanged). -/
theorem c9_forward_deterministic (config : Config) (model : Model) (x y : ℝ)
    (u1 u2 : ℕ → ℝ) (c1 c2 : ℕ) :
    (forwardNetwork config model x y u1 c1).1 =
      (forwardNetwork config model x y u2 c2).1 ∧
    (forwardNetwork config model x y u1 c1).2 = c1 :=
  ⟨rfl, rfl⟩

/-! ### Model construction -/

/-- `RandMat` as `createModel` calls it: mean `0`, spread `weightInitRange`;
since `0.8` is truthy, the `0.08` default is not substituted. -/
lemma jsOr_zero (d : ℝ) : jsOr 0 d = d := by
  simp [jsOr]

lemma jsOr_of_ne (x d : ℝ) (h : x ≠ 0) : jsOr x d = x := by
  simp [jsOr, h]

lemma randMat_model (rows columns : ℕ) (g : ℕ → ℝ) (c : ℕ) :
    RandMat rows columns 0 weightInitRange g c =
      (⟨rows, columns,
        (List.range (rows * columns)).map (fun i => g (c + i) * 0.8)⟩,
       c + rows * columns) := by
  rw [RandMat, jsOr_zero, jsOr_of_ne _ _ (by norm_num [weightInitRange])]
  simp [fillRandn, mkMat, generateRandomNormal, weightInitRange]

/-- The hidden-layer construction loop, in closed form. -/
lemma hiddenLayers_eq (input : ℕ) (g : ℕ → ℝ) :
    ∀ (k c : ℕ), hiddenLayers input g c k =
      ((List.range k).map (fun j => ⟨input, input,
        (List.range (input * input)).map
          (fun i => g (c + j * (input * input) + i) * 0.8)⟩),
       c + k * (input * input))
  | 0, c => by simp [hiddenLayers]
  | k + 1, c => by
    rw [hiddenLayers, randMat_model, hiddenLayers_eq input g k]
    rw [List.range_succ_eq_map]
    refine congrArg₂ Prod.mk ?_ (by ring)
    simp only [List.map_cons, List.map_map]
    refine congrArg₂ List.cons ?_ ?_
    · refine congrArg (Matrix.mk input input) ?_
      refine List.map_congr_left (fun i _ => ?_)
      have harg : c + 0 * (input * input) + i = c + i := by ring
      rw [harg]
    · refine List.map_congr_left (fun j _ => ?_)
      refine congrArg (Matrix.mk input input) ?_
      refine List.map_congr_left (fun i _ => ?_)
      have harg : c + input * input + j * (input * input) + i =
          c + j.succ * (input * input) + i := by
        rw [Nat.succ_eq_add_one]; ring
      rw [harg]

lemma createModel_w_in (config : Config) (g : ℕ → ℝ) (c : ℕ) :
    (createModel config g c).1.w_in =
      ⟨config.input, 3, (List.range (config.input * 3)).map
        (fun i => g (c + i) * 0.8)⟩ := by
  simp [createModel, randMat_model]

lemma createModel_w_out (config : Config) (g : ℕ → ℝ) (c : ℕ) :
    (createModel config g c).1.w_out =
      ⟨3, config.input, (List.range (3 * config.input)).map
        (fun i => g (c + config.input * 3 + i) * 0.8)⟩ := by
  simp [createModel, randMat_model]

lemma createModel_w_hidden (config : Config) (g : ℕ → ℝ) (c : ℕ) :
    (createModel config g c).1.w_hidden =
      (List.range config.hidden).map (fun j => ⟨config.input, config.input,
        (List.range (config.input * config.input)).map
          (fun i => g (c + config.input * 3 + 3 * config.input +
            j * (config.input * config.input) + i) * 0.8)⟩) := by
  simp only [createModel, randMat_model, hiddenLayers_eq]

/-- C5: `createModel` samples `w_in : (input, 3)` and `w_out : (3, input)`
and exactly `config.hidden` hidden matrices of shape `(input, input)`, in
sequential key order, every entry drawn as `deviate * 0.8` (the explicit
spread `0.8`, not the `0.08` default); with `hidden = 0` the hidden list is
`List.range 0 = []`, i.e. no hidden-layer member exists. -/
theorem c5_createModel_spec (config : Config) (g : ℕ → ℝ) (c : ℕ) :
    (createModel config g c).1.w_in =
      ⟨config.input, 3, (List.range (config.input * 3)).map
        (fun i => g (c + i) * 0.8)⟩ ∧
    (createModel config g c).1.w_out =
      ⟨3, config.input, (List.range (3 * config.input)).map
        (fun i => g (c + config.input * 3 + i) * 0.8)⟩ ∧
    (createModel config g c).1.w_hidden =
      (List.range config.hidden).map (fun j => ⟨config.input, config.input,
        (List.range (config.input * config.input)).map
          (fun i => g (c + config.input * 3 + 3 * config.input +
            j * (config.input * config.input) + i) * 0.8)⟩) ∧
    (createModel config g c).1.w_hidden.length = config.hidden := by
  refine ⟨createModel_w_in config g c, createModel_w_out config g c,
    createModel_w_hidden config g c, ?_⟩
  rw [createModel_w_hidden config g c]
  simp

/-! ### Forward pass -/

lemma exceptBind_ok {α β : Type} (a : α) (f : α → Except String β) :
    (Except.ok a : Except String α) >>= f = f a := rfl

lemma exceptPure {α : Type} (a : α) :
    (pure a : Except String α) = Except.ok a := rfl

/-- The three `set` calls build exactly the augmented vector `(x, y, 1.0)`. -/
lemma inputVector_eval (x_ y_ : ℝ) :
    inputVector x_ y_ = Except.ok ⟨3, 1, [x_, y_, 1.0]⟩ := rfl

lemma sig_pos (x : ℝ) : 0 < sig x := by
  unfold sig
  positivity

lemma sig_lt_one (x : ℝ) : sig x < 1 := by
  unfold sig
  rw [div_lt_one (by positivity)]
  have := Real.exp_pos (-x)
  norm_num
  linarith

lemma sig_zero : sig 0 = 0.5 := by
  rw [sig]
  rw [neg_zero, Real.exp_zero]
  norm_num

lemma hiddenStep_ok (model : Model) (N : ℕ) (out : Matrix) (i : ℕ)
    (hw : ∃ wl, model.w_hidden[i]? = some wl ∧ wl.n = N ∧ wl.d = N ∧ wl.wf)
    (h1 : out.n = N) (h2 : out.d = 1) (h3 : out.wf) :
    ∃ out', hiddenStep model out i = Except.ok out' ∧
      out'.n = N ∧ out'.d = 1 ∧ out'.wf := by
  obtain ⟨wl, hget, hn, hd, hwf⟩ := hw
  obtain ⟨m3, hmul, e1, e2, e3⟩ := matrixMul_shape wl out (by rw [hd, h1])
  refine ⟨tanh m3, ?_, ?_, ?_, elemwise_wf _ _⟩
  · simp only [hiddenStep, hget, hmul, exceptBind_ok, exceptPure]
  · simp [tanh, e1, hn]
  · simp [tanh, e2, h2]

lemma foldl_hiddenStep_ok (model : Model) (N : ℕ) :
    ∀ (L : List ℕ) (out0 : Matrix),
      (∀ i ∈ L, ∃ wl, model.w_hidden[i]? = some wl ∧
        wl.n = N ∧ wl.d = N ∧ wl.wf) →
      out0.n = N → out0.d = 1 → out0.wf →
      ∃ outh, L.foldlM (hiddenStep model) out0 = Except.ok outh ∧
        outh.n = N ∧ outh.d = 1 ∧ outh.wf
  | [], out0, _, h1, h2, h3 => ⟨out0, rfl, h1, h2, h3⟩
  | i :: L, out0, hAll, h1, h2, h3 => by
    obtain ⟨out1, hstep, e1, e2, e3⟩ :=
      hiddenStep_ok model N out0 i (hAll i (by simp)) h1 h2 h3
    obtain ⟨outh, hfold, f1, f2, f3⟩ :=
      foldl_hiddenStep_ok model N L out1
        (fun j hj => hAll j (by simp [hj])) e1 e2 e3
    refine ⟨outh, ?_, f1, f2, f3⟩
    rw [List.foldlM_cons, hstep, exceptBind_ok, hfold]

/-- Structure of a successful forward pass: on a model whose matrices have
the shapes `createModel` produces, the result is the `(3, 1)` matrix of the
three sigmoid images of the output-layer dot products. -/
lemma forward_structure (config : Config) (model : Model) (N : ℕ)
    (h1 : model.w_in.n = N) (h2 : model.w_in.d = 3) (h3 : model.w_in.wf)
    (h4 : ∀ i, i < config.hidden → ∃ wl, model.w_hidden[i]? = some wl ∧
      wl.n = N ∧ wl.d = N ∧ wl.wf)
    (h5 : model.w_out.n = 3) (h6 : model.w_out.d = N) (h7 : model.w_out.wf)
    (x_ y_ : ℝ) (u : ℕ → ℝ) (c : ℕ) :
    ∃ v0 v1 v2 : ℝ, (forwardNetwork config model x_ y_ u c).1 =
      Except.ok ⟨3, 1, [sig v0, sig v1, sig v2]⟩ := by
  obtain ⟨m1, hmul1, e1, e2, e3⟩ :=
    matrixMul_shape model.w_in ⟨3, 1, [x_, y_, 1.0]⟩ (by simpa using h2)
  obtain ⟨outh, hfold, f1, f2, f3⟩ :=
    foldl_hiddenStep_ok model N (List.range config.hidden) (tanh m1)
      (fun i hi => h4 i (List.mem_range.mp hi))
      (by simp [tanh, e1, h1]) (by simp [tanh, e2]) (elemwise_wf _ _)
  obtain ⟨m2, hmul2, g1, g2, g3⟩ :=
    matrixMul_shape model.w_out outh (by rw [h6, f1])
  have hlen : m2.w.length = 3 := by
    have : m2.w.length = m2.n * m2.d := g3
    rw [this, g1, g2, f2, h5]
  obtain ⟨b0, b1, b2, hb⟩ := List.length_eq_three.mp hlen
  refine ⟨b0, b1, b2, ?_⟩
  show (forwardNetwork config model x_ y_ u c).1 = _
  rw [forwardNetwork]
  simp only [inputVector_eval, exceptBind_ok, hmul1, hiddenPass, hfold,
    hmul2, exceptPure]
  rw [sigmoid, elemwise_of_wf sig m2 g3]
  rw [hb]
  have hn2 : m2.n = 3 := by rw [g1, h5]
  have hd2 : m2.d = 1 := by rw [g2, f2]
  rw [hn2, hd2]
  rfl

/-- C1: for any model produced by `createModel`, the forward pass succeeds,
building the `(3, 1)` augmented vector, applying `tanh` after `w_in`, each
hidden layer in order, and `sigmoid` after `w_out`; the result is a `(3, 1)`
matrix whose three values are strictly inside `(0, 1)`. -/
theorem c1_forward_range (config : Config) (g : ℕ → ℝ) (cg : ℕ) (x y : ℝ)
    (u : ℕ → ℝ) (c : ℕ) :
    ∃ a0 a1 a2 : ℝ,
      (forwardNetwork config (createModel config g cg).1 x y u c).1 =
        Except.ok ⟨3, 1, [a0, a1, a2]⟩ ∧
      0 < a0 ∧ a0 < 1 ∧ 0 < a1 ∧ a1 < 1 ∧ 0 < a2 ∧ a2 < 1 := by
  obtain ⟨v0, v1, v2, hfwd⟩ :=
    forward_structure config (createModel config g cg).1 config.input
      (by rw [createModel_w_in]) (by rw [createModel_w_in])
      (by rw [createModel_w_in]; simp [Matrix.wf])
      (fun i hi => by
        have hg : (createModel config g cg).1.w_hidden[i]? =
            some ⟨config.input, config.input,
              (List.range (config.input * config.input)).map
                (fun q => g (cg + config.input * 3 + 3 * config.input +
                  i * (config.input * config.input) + q) * 0.8)⟩ := by
          rw [createModel_w_hidden]
          rw [List.getElem?_map, List.getElem?_range hi]
          rfl
        exact ⟨_, hg, rfl, rfl, by simp [Matrix.wf]⟩)
      (by rw [createModel_w_out]) (by rw [createModel_w_out])
      (by rw [createModel_w_out]; simp [Matrix.wf]) x y u c
  exact ⟨sig v0, sig v1, sig v2, hfwd, sig_pos v0, sig_lt_one v0,
    sig_pos v1, sig_lt_one v1, sig_pos v2, sig_lt_one v2⟩

/-- With `input = 0` every hidden step multiplies a `(0, 0)` matrix by the
empty `(0, 1)` vector and changes nothing. -/
lemma foldl_hiddenStep_zero (model : Model) :
    ∀ (L : List ℕ), (∀ i ∈ L, model.w_hidden[i]? = some ⟨0, 0, []⟩) →
      L.foldlM (hiddenStep model) ⟨0, 1, []⟩ = Except.ok ⟨0, 1, []⟩
  | [], _ => rfl
  | i :: L, hAll => by
    have hstep : hiddenStep model ⟨0, 1, []⟩ i = Except.ok ⟨0, 1, []⟩ := by
      simp only [hiddenStep, hAll i (by simp)]
      rw [matrixMul_ok _ _ rfl]
      rfl
    rw [List.foldlM_cons, hstep, exceptBind_ok]
    exact foldl_hiddenStep_zero model L (fun j hj => hAll j (by simp [hj]))

/-- C10: with `input = 0` the forward pass of any `createModel` model
returns the `(3, 1)` matrix `[0.5, 0.5, 0.5]` for every `(x, y)`: the
`(3, 0) × (0, 1)` product has empty dot products, so every pre-noise
activation is `sigmoid(0) = 0.5`. -/
theorem c10_input_zero_half (width height hid : ℕ) (mr mg mb : ℝ)
    (g : ℕ → ℝ) (cg : ℕ) (x y : ℝ) (u : ℕ → ℝ) (c : ℕ) :
    (forwardNetwork ⟨width, height, 0, hid, mr, mg, mb⟩
      (createModel ⟨width, height, 0, hid, mr, mg, mb⟩ g cg).1 x y u c).1 =
      Except.ok ⟨3, 1, [0.5, 0.5, 0.5]⟩ := by
  have hin : (createModel ⟨width, height, 0, hid, mr, mg, mb⟩ g cg).1.w_in =
      ⟨0, 3, []⟩ := by
    rw [createModel_w_in]
    rfl
  have hout : (createModel ⟨width, height, 0, hid, mr, mg, mb⟩ g cg).1.w_out =
      ⟨3, 0, []⟩ := by
    rw [createModel_w_out]
    rfl
  have hhid : ∀ i ∈ List.range hid,
      (createModel ⟨width, height, 0, hid, mr, mg, mb⟩ g cg).1.w_hidden[i]? =
        some ⟨0, 0, []⟩ := by
    intro i hi
    rw [createModel_w_hidden, List.getElem?_map,
      List.getElem?_range (List.mem_range.mp hi)]
    rfl
  have hmul1 : matrixMul (⟨0, 3, []⟩ : Matrix) ⟨3, 1, [x, y, 1.0]⟩ =
      Except.ok ⟨0, 1, []⟩ := by
    rw [matrixMul_ok _ _ rfl]
    rfl
  have hmul2 : matrixMul (⟨3, 0, []⟩ : Matrix) ⟨0, 1, []⟩ =
      Except.ok ⟨3, 1, [0, 0, 0]⟩ := by
    rw [matrixMul_ok _ _ rfl]
    rfl
  have hsig : sigmoid ⟨3, 1, [0, 0, 0]⟩ = ⟨3, 1, [0.5, 0.5, 0.5]⟩ := by
    rw [sigmoid, elemwise_of_wf sig _ (by simp [Matrix.wf])]
    simp [sig_zero]
  have htanh : tanh (⟨0, 1, []⟩ : Matrix) = ⟨0, 1, []⟩ := rfl
  have hfold := foldl_hiddenStep_zero
    (createModel ⟨width, height, 0, hid, mr, mg, mb⟩ g cg).1
    (List.range hid) hhid
  rw [forwardNetwork]
  simp only [inputVector_eval, exceptBind_ok, hin, hout, hmul1, htanh,
    hiddenPass, hfold, hmul2, hsig, exceptPure]

/-! ### Color derivation -/

lemma forwardNetwork_snd (config : Config) (model : Model) (x y : ℝ)
    (u : ℕ → ℝ) (c : ℕ) : (forwardNetwork config model x y u c).2 = c := rfl

/-- Forward pass on a `createModel` model: always succeeds with three
sigmoid values. -/
lemma forward_createModel (config : Config) (g : ℕ → ℝ) (cg : ℕ) (x y : ℝ)
    (u : ℕ → ℝ) (c : ℕ) :
    ∃ v0 v1 v2 : ℝ,
      (forwardNetwork config (createModel config g cg).1 x y u c).1 =
        Except.ok ⟨3, 1, [sig v0, sig v1, sig v2]⟩ :=
  forward_structure config (createModel config g cg).1 config.input
    (by rw [createModel_w_in]) (by rw [createModel_w_in])
    (by rw [createModel_w_in]; simp [Matrix.wf])
    (fun i hi => by
      have hg : (createModel config g cg).1.w_hidden[i]? =
          some ⟨config.input, config.input,
            (List.range (config.input * config.input)).map
              (fun q => g (cg + config.input * 3 + 3 * config.input +
                i * (config.input * config.input) + q) * 0.8)⟩ := by
        rw [createModel_w_hidden]
        rw [List.getElem?_map, List.getElem?_range hi]
        rfl
      exact ⟨_, hg, rfl, rfl, by simp [Matrix.wf]⟩)
    (by rw [createModel_w_out]) (by rw [createModel_w_out])
    (by rw [createModel_w_out]; simp [Matrix.wf]) x y u c

/-- Evaluation of `getColorAt` once the forward result is known to be a full
`(3, 1)` matrix. -/
lemma getColorAt_eval (config : Config) (model : Model) (x y : ℝ)
    (u : ℕ → ℝ) (c : ℕ) (a0 a1 a2 : ℝ)
    (hf : (forwardNetwork config model x y u c).1 =
      Except.ok ⟨3, 1, [a0, a1, a2]⟩) :
    getColorAt config model x y u c =
      (Except.ok [some (clamp255 ((a0 + noiseVal (u c)) * config.maxR)),
        some (clamp255 ((a1 + noiseVal (u (c + 1))) * config.maxG)),
        some (clamp255 ((a2 + noiseVal (u (c + 2))) * config.maxB)),
        some 255], c + 3) := by
  simp only [getColorAt, hf, forwardNetwork_snd]
  rfl

lemma noiseVal_bounds (r : ℝ) (h0 : 0 ≤ r) (h1 : r < 1) :
    -0.03 ≤ noiseVal r ∧ noiseVal r < 0.03 := by
  unfold noiseVal noiseRange
  constructor <;> nlinarith

lemma clamp255_mem (v : ℝ) : 0 ≤ clamp255 v ∧ clamp255 v ≤ 255 :=
  ⟨le_min (by norm_num) (le_max_left 0 v), min_le_left _ _⟩

/-- C2 counterexample: the claim quantifies over every model, but for the
model `{w_in: new Matrix(1,3), w_out: new Matrix(0,1)}` the forward pass
succeeds with an empty `(0, 1)` output matrix, so `out.w[0]` is `undefined`
and all three channels are `NaN` (`none`) — not values clamped into
`[0, 255]`.  (Alpha is still exactly `255`.) -/
theorem c2_counterexample :
    (getColorAt ⟨1, 1, 1, 0, 255, 255, 255⟩ ⟨mkMat 1 3, mkMat 0 1, []⟩ 0 0
      (fun _ => 0) 0).1 = Except.ok [none, none, none, some 255] ∧
    ¬ clampedChan none := by
  constructor
  · obtain ⟨m1, hmul1, e1, e2, e3⟩ :=
      matrixMul_shape (mkMat 1 3) ⟨3, 1, [0, 0, 1.0]⟩ rfl
    have hmul2 : matrixMul (mkMat 0 1) (tanh m1) = Except.ok ⟨0, 1, []⟩ := by
      rw [matrixMul_ok _ _ (by simp [tanh, e1, mkMat])]
      simp [tanh, e2]
    have hsig : sigmoid ⟨0, 1, []⟩ = ⟨0, 1, []⟩ := rfl
    simp only [getColorAt, forwardNetwork, inputVector_eval, exceptBind_ok,
      hmul1, hiddenPass, List.range_zero, List.foldlM_nil, hmul2, hsig,
      exceptPure]
    rfl
  · rintro ⟨v, hv, _⟩
    cases hv

/-- C2 amended: for every model produced by `createModel` (so that the
forward output really has three activations), `getColorAt` adds one fresh
uniform noise sample — lying in `[-0.03, 0.03)` whenever `Math.random()`
yields values in `[0, 1)` — to each activation *before* scaling by that
channel's maximum, clamps each channel with `min 255 (max 0 ·)` (hence into
`[0, 255]`), returns alpha exactly `255`, and consumes exactly three random
draws. -/
theorem c2_colorAt_amended (config : Config) (g : ℕ → ℝ) (cg : ℕ) (x y : ℝ)
    (u : ℕ → ℝ) (c : ℕ) (hu : ∀ i, 0 ≤ u i ∧ u i < 1) :
    ∃ a0 a1 a2 : ℝ,
      (forwardNetwork config (createModel config g cg).1 x y u c).1 =
        Except.ok ⟨3, 1, [a0, a1, a2]⟩ ∧
      (∀ i, -0.03 ≤ noiseVal (u i) ∧ noiseVal (u i) < 0.03) ∧
      getColorAt config (createModel config g cg).1 x y u c =
        (Except.ok [some (clamp255 ((a0 + noiseVal (u c)) * config.maxR)),
          some (clamp255 ((a1 + noiseVal (u (c + 1))) * config.maxG)),
          some (clamp255 ((a2 + noiseVal (u (c + 2))) * config.maxB)),
          some 255], c + 3) ∧
      (∀ v : ℝ, 0 ≤ clamp255 v ∧ clamp255 v ≤ 255) := by
  obtain ⟨v0, v1, v2, hf⟩ := forward_createModel config g cg x y u c
  exact ⟨sig v0, sig v1, sig v2, hf,
    fun i => noiseVal_bounds (u i) (hu i).1 (hu i).2,
    getColorAt_eval config _ x y u c _ _ _ hf, clamp255_mem⟩

/-- Witness for C2's amended statement at a concrete configuration, the
all-zero deviate tape and the all-zero `Math.random()` tape. -/
theorem c2_colorAt_amended_witness :
    ∃ a0 a1 a2 : ℝ,
      (forwardNetwork ⟨1, 1, 1, 0, 255, 255, 255⟩
        (createModel ⟨1, 1, 1, 0, 255, 255, 255⟩ (fun _ => 0) 0).1 0 0
        (fun _ => 0) 0).1 = Except.ok ⟨3, 1, [a0, a1, a2]⟩ ∧
      (∀ i : ℕ, -0.03 ≤ noiseVal ((fun _ => (0 : ℝ)) i) ∧
        noiseVal ((fun _ => (0 : ℝ)) i) < 0.03) ∧
      getColorAt ⟨1, 1, 1, 0, 255, 255, 255⟩
        (createModel ⟨1, 1, 1, 0, 255, 255, 255⟩ (fun _ => 0) 0).1 0 0
        (fun _ => 0) 0 =
        (Except.ok [some (clamp255 ((a0 + noiseVal 0) * 255)),
          some (clamp255 ((a1 + noiseVal 0) * 255)),
          some (clamp255 ((a2 + noiseVal 0) * 255)),
          some 255], 0 + 3) ∧
      (∀ v : ℝ, 0 ≤ clamp255 v ∧ clamp255 v ≤ 255) :=
  c2_colorAt_amended ⟨1, 1, 1, 0, 255, 255, 255⟩ (fun _ => 0) 0 0 0
    (fun _ => 0) 0 (fun i => by norm_num)

/-! ### Image assembly -/

lemma getColorAt_createModel (config : Config) (g : ℕ → ℝ) (cg : ℕ)
    (x y : ℝ) (u : ℕ → ℝ) (c : ℕ) :
    ∃ l, getColorAt config (createModel config g cg).1 x y u c =
      (Except.ok l, c + 3) := by
  obtain ⟨v0, v1, v2, hf⟩ := forward_createModel config g cg x y u c
  exact ⟨_, getColorAt_eval config _ x y u c _ _ _ hf⟩

/-- The pixel loop on a `createModel` model always succeeds, emits four
bytes per pixel in traversal order, consumes three random draws per pixel,
and the four bytes of the `k`-th traversed pixel are its `pixelBytes` at the
cursor position `c + 3*k`. -/
lemma renderPixels_spec (config : Config) (g : ℕ → ℝ) (cg : ℕ) (u : ℕ → ℝ) :
    ∀ (L : List (ℕ × ℕ)) (c : ℕ),
      ∃ bs, renderPixels config (createModel config g cg).1 u L c =
          (Except.ok bs, c + 3 * L.length) ∧
        bs.length = 4 * L.length ∧
        ∀ k, k < L.length →
          (bs.drop (4 * k)).take 4 =
            pixelBytes config (createModel config g cg).1 u (L.getD k (0, 0))
              (c + 3 * k)
  | [], c => ⟨[], by simp [renderPixels], by simp, fun k hk => by simp at hk⟩
  | (x, y) :: rest, c => by
    obtain ⟨l, hcol⟩ := getColorAt_createModel config g cg
      ((x : ℝ) / (config.width : ℝ)) ((y : ℝ) / (config.height : ℝ)) u c
    obtain ⟨bs, hrest, hblen, hchunk⟩ :=
      renderPixels_spec config g cg u rest (c + 3)
    refine ⟨chanBytes l ++ bs, ?_, ?_, ?_⟩
    · rw [renderPixels]
      simp only [hcol, hrest]
      refine congrArg₂ Prod.mk rfl ?_
      simp only [List.length_cons]
      ring
    · rw [List.length_append, hblen]
      simp only [chanBytes, List.length_cons]
      simp only [List.length_cons, List.length_nil]
      omega
    · intro k hk
      match k with
      | 0 =>
        have hpix : pixelBytes config (createModel config g cg).1 u (x, y)
            (c + 3 * 0) = chanBytes l := by
          rw [pixelBytes]
          have h1 : (getColorAt config (createModel config g cg).1
              ((x : ℝ) / (config.width : ℝ)) ((y : ℝ) / (config.height : ℝ))
              u (c + 3 * 0)).1 = Except.ok l := by
            rw [show c + 3 * 0 = c by ring, hcol]
          simp only [h1]
        simp only [List.getD_cons_zero]
        rw [hpix]
        simp [chanBytes]
      | k + 1 =>
        have h4 : 4 * (k + 1) = ((((4 * k) + 1) + 1) + 1) + 1 := by ring
        rw [h4]
        simp only [chanBytes, List.cons_append, List.nil_append,
          List.drop_succ_cons, List.getD_cons_succ]
        have harith : c + 3 * (k + 1) = (c + 3) + 3 * k := by ring
        rw [harith]
        exact hchunk k (by simpa using hk)

lemma flat_length (h w : ℕ) :
    ((List.range h).flatMap (fun y =>
      (List.range w).map (fun x => (x, y)))).length = h * w := by
  induction h with
  | zero => simp
  | succ h ih =>
    rw [List.range_succ, List.flatMap_append, List.length_append, ih]
    simp [Nat.succ_mul]

lemma flat_getD (h w y x : ℕ) (hy : y < h) (hx : x < w) :
    ((List.range h).flatMap (fun y =>
      (List.range w).map (fun x => (x, y)))).getD (y * w + x) (0, 0) =
      (x, y) := by
  induction h with
  | zero => omega
  | succ h ih =>
    rw [List.range_succ, List.flatMap_append]
    by_cases hyh : y < h
    · rw [List.getD_append _ _ _ _ (by
        rw [flat_length]
        exact index_lt_of_lt_lt' hyh hx)]
      exact ih hyh
    · have hy' : y = h := by omega
      rw [List.getD_append_right _ _ _ _ (by rw [flat_length, hy']; omega)]
      rw [flat_length, hy']
      have hsub : h * w + x - h * w = x := by omega
      rw [hsub]
      simp only [List.flatMap_cons, List.flatMap_nil, List.append_nil]
      rw [List.getD_eq_getElem?_getD, List.getElem?_map,
        List.getElem?_range hx]
      rfl

/-- C6: `renderImage` succeeds on every `createModel` model and returns a
flat row-major RGBA buffer of length exactly `width*height*4`; the four
bytes of pixel `(x, y)` sit at byte offset `(y*width + x)*4` and are the
byte conversions of the color computed at the normalized coordinates
`(x/width, y/height)` (with the three noise draws of that pixel), which are
always strictly below `1`. -/
theorem c6_renderImage_layout (config : Config) (g u : ℕ → ℝ) (cg cu : ℕ)
    (hw : 0 < config.width) (hh : 0 < config.height) :
    ∃ buf, (getImageData config g u cg cu).1 = Except.ok buf ∧
      buf.length = config.width * config.height * 4 ∧
      ∀ x y, x < config.width → y < config.height →
        ((buf.drop ((y * config.width + x) * 4)).take 4 =
          pixelBytes config (createModel config g cg).1 u (x, y)
            (cu + 3 * (y * config.width + x)) ∧
         (x : ℝ) / (config.width : ℝ) < 1 ∧
         (y : ℝ) / (config.height : ℝ) < 1) := by
  obtain ⟨bs, hrun, hlen, hchunk⟩ :=
    renderPixels_spec config g cg u (pixelList config) cu
  have hplen : (pixelList config).length = config.height * config.width :=
    flat_length config.height config.width
  refine ⟨bs, ?_, ?_, ?_⟩
  · rw [getImageData, hrun]
  · rw [hlen, hplen]; ring
  · intro x y hx hy
    have hk : y * config.width + x < (pixelList config).length := by
      rw [hplen]
      exact index_lt_of_lt_lt' hy hx
    have hgd : (pixelList config).getD (y * config.width + x) (0, 0) =
        (x, y) := flat_getD config.height config.width y x hy hx
    refine ⟨?_, ?_, ?_⟩
    · have := hchunk (y * config.width + x) hk
      rw [hgd] at this
      rw [show (y * config.width + x) * 4 = 4 * (y * config.width + x)
        by ring]
      exact this
    · rw [div_lt_one (by exact_mod_cast hw)]
      exact_mod_cast hx
    · rw [div_lt_one (by exact_mod_cast hh)]
      exact_mod_cast hy

/-- Witness for C6 at a concrete 1×1 configuration. -/
theorem c6_renderImage_layout_witness :
    ∃ buf, (getImageData ⟨1, 1, 1, 0, 255, 255, 255⟩ (fun _ => 0)
        (fun _ => 0) 0 0).1 = Except.ok buf ∧
      buf.length = 1 * 1 * 4 ∧
      ∀ x y, x < 1 → y < 1 →
        ((buf.drop ((y * 1 + x) * 4)).take 4 =
          pixelBytes ⟨1, 1, 1, 0, 255, 255, 255⟩
            (createModel ⟨1, 1, 1, 0, 255, 255, 255⟩ (fun _ => 0) 0).1
            (fun _ => 0) (x, y) (0 + 3 * (y * 1 + x)) ∧
         (x : ℝ) / ((1 : ℕ) : ℝ) < 1 ∧ (y : ℝ) / ((1 : ℕ) : ℝ) < 1) :=
  c6_renderImage_layout ⟨1, 1, 1, 0, 255, 255, 255⟩ (fun _ => 0) (fun _ => 0)
    0 0 (by norm_num) (by norm_num)

/-! ### C7: the allocation semantics of the constructor -/

lemma jsTrunc_intCast (z : ℤ) : jsTrunc (z : ℝ) = z := by
  unfold jsTrunc
  by_cases h : (z : ℝ) < 0
  · rw [if_pos h]
    rw [show -(z : ℝ) = ((-z : ℤ) : ℝ) by push_cast; ring]
    rw [Int.floor_intCast]
    ring
  · rw [if_neg h, Int.floor_intCast]

lemma isNaN_iff (j : JNum) : j.isNaN = true ↔ j = JNum.nan := by
  cases j <;> simp [JNum.isNaN]

/-- C7 counterexample: `new Matrix(-2, 3)` computes the buffer length
`-2 * 3 = -6`, which is not `NaN`, so the `isNaN` guard does not fire and
`new Float64Array(-6)` throws a `RangeError` — the construction is an error,
not the empty buffer the claim asserts. -/
theorem c7_counterexample :
    matrixNew (JNum.fin (-2)) (JNum.fin 3) = Except.error msgRangeErr ∧
    matrixNew (JNum.fin (-2)) (JNum.fin 3) ≠ Except.ok [] := by
  have hmul : jmul (JNum.fin (-2)) (JNum.fin 3) = JNum.fin ((-6 : ℤ) : ℝ) := by
    rw [jmul]
    norm_num
  have : matrixNew (JNum.fin (-2)) (JNum.fin 3) = Except.error msgRangeErr := by
    rw [matrixNew, hmul, zeros]
    rw [if_neg (by simp [JNum.isNaN])]
    rw [toIndex]
    simp only [jsTrunc_intCast]
    norm_num
  exact ⟨this, by rw [this]; simp⟩

/-- C7 amended: `new Matrix(n, d)` yields the zero-filled buffer of `n*d`
entries for natural `n*d` below `2^53`, the empty buffer when `n*d` is `NaN`
(the only case the `isNaN` guard covers), and throws a `RangeError` whenever
`n*d` is at most `-1` (and likewise for an infinite `n*d`), rather than
returning an empty buffer. -/
theorem c7_construct_amended :
    (∀ a b : ℕ, (a : ℤ) * b ≤ 2 ^ 53 - 1 →
      matrixNew (JNum.fin a) (JNum.fin b) =
        Except.ok (List.replicate (a * b) 0)) ∧
    (∀ n d : JNum, (jmul n d).isNaN = true → matrixNew n d = Except.ok []) ∧
    (∀ x y : ℝ, x * y ≤ -1 →
      matrixNew (JNum.fin x) (JNum.fin y) = Except.error msgRangeErr) ∧
    matrixNew JNum.posInf (JNum.fin 1) = Except.error msgRangeErr := by
  refine ⟨?_, ?_, ?_, ?_⟩
  · intro a b hab
    have hmul : jmul (JNum.fin a) (JNum.fin b) =
        JNum.fin (((a * b : ℕ) : ℤ) : ℝ) := by
      rw [jmul]
      push_cast
      ring_nf
    rw [matrixNew, hmul, zeros]
    rw [if_neg (by simp [JNum.isNaN])]
    rw [toIndex]
    simp only [jsTrunc_intCast]
    rw [if_neg (by rw [← Nat.cast_mul] at hab; omega)]
    simp only [Int.toNat_natCast]
  · intro n d hnan
    rw [isNaN_iff] at hnan
    rw [matrixNew, hnan, zeros]
    simp [JNum.isNaN]
  · intro x y hxy
    have hx0 : x * y < 0 := by linarith
    have hfloor : (1 : ℤ) ≤ Int.floor (-(x * y)) := by
      rw [Int.le_floor]
      push_cast
      linarith
    rw [matrixNew, jmul, zeros]
    rw [if_neg (by simp [JNum.isNaN])]
    rw [toIndex]
    rw [jsTrunc, if_pos hx0]
    rw [if_pos (by omega)]
  · rw [matrixNew, jmul]
    rw [if_neg (by norm_num), if_pos (by norm_num)]
    rw [zeros]
    rw [if_neg (by simp [JNum.isNaN])]
    rfl

/-- Witness for C7's amended statement at concrete inputs. -/
theorem c7_construct_amended_witness :
    matrixNew (JNum.fin ((2 : ℕ) : ℝ)) (JNum.fin ((3 : ℕ) : ℝ)) =
      Except.ok (List.replicate (2 * 3) 0) ∧
    matrixNew JNum.nan JNum.nan = Except.ok [] ∧
    matrixNew (JNum.fin (-1)) (JNum.fin 1) = Except.error msgRangeErr :=
  ⟨c7_construct_amended.1 2 3 (by norm_num),
   c7_construct_amended.2.1 JNum.nan JNum.nan rfl,
   c7_construct_amended.2.2.1 (-1) 1 (by norm_num)⟩

end FFNN
